import Mathlib

/-!
Verification of the GhostLink P2P secure-messaging core.

Shallow embedding of the Rust sources:
  * `src/messaging/crypto.rs`     — key derivation, AEAD framing, SAS fingerprint
  * `src/messaging/handshake.rs`  — UDP hole-punching handshake state machine
  * `src/messaging/message_manager.rs` — session lifecycle, nonce counters
  * `src/net.rs`                  — STUN resolution and NAT classification
  * `src/web/shared_state.rs`     — status record and event broadcast

Bytes are `List Nat` (each entry < 256 in every use below); machine words are
`Nat` reduced `% 2 ^ 32` / `% 2 ^ 64` where the Rust code uses `u32` / `u64`.
External crates (x25519-dalek, chacha20poly1305, aes-gcm) are embedded through
explicit function parameters or through the `Aead` interface record, which
carries the documented AEAD contract of those crates (round-trip correctness
and the 16-byte authentication tag).
-/

namespace GhostLink

/-! ## Byte-level utilities -/

/-- Big-endian bytes of a `u64` value, as produced by Rust `u64::to_be_bytes`. -/
def u64BeBytes (n : Nat) : List Nat :=
  [n / 2 ^ 56 % 256, n / 2 ^ 48 % 256, n / 2 ^ 40 % 256, n / 2 ^ 32 % 256,
   n / 2 ^ 24 % 256, n / 2 ^ 16 % 256, n / 2 ^ 8 % 256, n % 256]

/-- Big-endian bytes of a `u32` value. -/
def u32BeBytes (n : Nat) : List Nat :=
  [n / 2 ^ 24 % 256, n / 2 ^ 16 % 256, n / 2 ^ 8 % 256, n % 256]

/-- Little-endian bytes of a `u32` value, as used by bincode enum tags. -/
def u32LeBytes (n : Nat) : List Nat :=
  [n % 256, n / 2 ^ 8 % 256, n / 2 ^ 16 % 256, n / 2 ^ 24 % 256]

/-- Little-endian bytes of a `u64` value, as used by bincode length prefixes. -/
def u64LeBytes (n : Nat) : List Nat :=
  [n % 256, n / 2 ^ 8 % 256, n / 2 ^ 16 % 256, n / 2 ^ 24 % 256,
   n / 2 ^ 32 % 256, n / 2 ^ 40 % 256, n / 2 ^ 48 % 256, n / 2 ^ 56 % 256]

/-- UTF-8 bytes of a string (all strings in the sources are ASCII). -/
def strBytes (s : String) : List Nat :=
  s.toUTF8.toList.map (fun b => b.toNat)

/-- One uppercase hexadecimal digit. -/
def hexChar (n : Nat) : Char :=
  "0123456789ABCDEF".toList.getD n '0'

/-- Two-digit uppercase hexadecimal rendering of a byte,
as produced by the Rust format specifier for zero-padded upper hex. -/
def hexByte (n : Nat) : String :=
  String.mk [hexChar (n / 16), hexChar (n % 16)]

/-! ## Lexicographic comparison of byte strings

Rust `<[u8; 32] as Ord>::cmp` is element-wise lexicographic; `keys.sort()` on a
two-element array keeps the order when the first element is not greater. -/

/-- Lexicographic comparison of byte lists (Rust `Ord` on byte arrays). -/
def bytesCmp : List Nat → List Nat → Ordering
  | [], [] => .eq
  | [], _ :: _ => .lt
  | _ :: _, [] => .gt
  | a :: as, b :: bs => if a < b then .lt else if b < a then .gt else bytesCmp as bs

/-- Stable ascending sort of the two-element array `[a, b]`
(the `keys.sort()` call in `derive_session`). -/
def sortPair (a b : List Nat) : List Nat × List Nat :=
  if bytesCmp a b = .gt then (b, a) else (a, b)

theorem bytesCmp_eq : ∀ a b : List Nat, bytesCmp a b = .eq → a = b := by
  intro a
  induction a with
  | nil => intro b h; cases b with
    | nil => rfl
    | cons x xs => simp [bytesCmp] at h
  | cons x xs ih =>
    intro b h
    cases b with
    | nil => simp [bytesCmp] at h
    | cons y ys =>
      simp only [bytesCmp] at h
      by_cases hxy : x < y
      · simp [hxy] at h
      · by_cases hyx : y < x
        · simp [hxy, hyx] at h
        · have hx : x = y := Nat.le_antisymm (Nat.le_of_not_lt hyx) (Nat.le_of_not_lt hxy)
          simp [hxy, hyx] at h
          rw [hx, ih ys h]

theorem bytesCmp_gt_iff : ∀ a b : List Nat, bytesCmp a b = .gt ↔ bytesCmp b a = .lt := by
  intro a
  induction a with
  | nil => intro b; cases b <;> simp [bytesCmp]
  | cons x xs ih =>
    intro b
    cases b with
    | nil => simp [bytesCmp]
    | cons y ys =>
      simp only [bytesCmp]
      by_cases hxy : x < y
      · have hyx : ¬ y < x := Nat.lt_asymm hxy
        simp [hxy, hyx]
      · by_cases hyx : y < x
        · simp [hxy, hyx]
        · simp [hxy, hyx, ih ys]

theorem sortPair_comm (a b : List Nat) : sortPair a b = sortPair b a := by
  unfold sortPair
  cases h : bytesCmp a b with
  | eq =>
    have hab : a = b := bytesCmp_eq a b h
    subst hab; simp [h]
  | lt =>
    have h1 : ¬ bytesCmp a b = .gt := by simp [h]
    have h2 : bytesCmp b a = .gt := (bytesCmp_gt_iff b a).mpr h
    simp [h1, h2]
  | gt =>
    have h2 : bytesCmp b a = .lt := (bytesCmp_gt_iff a b).mp h
    have h3 : ¬ bytesCmp b a = .gt := by simp [h2]
    simp [h, h3]

/-! ## SHA-256 (the `sha2` crate primitive used by `derive_session` and HKDF) -/

/-- 32-bit right rotation. -/
def rotr32 (n x : Nat) : Nat :=
  (x / 2 ^ n + x % 2 ^ n * 2 ^ (32 - n)) % 2 ^ 32

/-- 32-bit bitwise complement (`x < 2 ^ 32` in every use). -/
def bnot32 (x : Nat) : Nat := 2 ^ 32 - 1 - x % 2 ^ 32

def shaCh (x y z : Nat) : Nat := (x &&& y) ^^^ (bnot32 x &&& z)

def shaMaj (x y z : Nat) : Nat := (x &&& y) ^^^ (x &&& z) ^^^ (y &&& z)

def shaBSig0 (x : Nat) : Nat := rotr32 2 x ^^^ rotr32 13 x ^^^ rotr32 22 x

def shaBSig1 (x : Nat) : Nat := rotr32 6 x ^^^ rotr32 11 x ^^^ rotr32 25 x

def shaSSig0 (x : Nat) : Nat := rotr32 7 x ^^^ rotr32 18 x ^^^ x / 2 ^ 3

def shaSSig1 (x : Nat) : Nat := rotr32 17 x ^^^ rotr32 19 x ^^^ x / 2 ^ 10

/-- The 64 SHA-256 round constants of FIPS 180-4 (fractional parts of the
cube roots of the first 64 primes), written in decimal. -/
def shaK : List Nat :=
  [1116352408, 1899447441, 3049323471, 3921009573, 961987163, 1508970993,
   2453635748, 2870763221, 3624381080, 310598401, 607225278, 1426881987,
   1925078388, 2162078206, 2614888103, 3248222580, 3835390401, 4022224774,
   264347078, 604807628, 770255983, 1249150122, 1555081692, 1996064986,
   2554220882, 2821834349, 2952996808, 3210313671, 3336571891, 3584528711,
   113926993, 338241895, 666307205, 773529912, 1294757372, 1396182291,
   1695183700, 1986661051, 2177026350, 2456956037, 2730485921, 2820302411,
   3259730800, 3345764771, 3516065817, 3600352804, 4094571909, 275423344,
   430227734, 506948616, 659060556, 883997877, 958139571, 1322822218,
   1537002063, 1747873779, 1955562222, 2024104815, 2227730452, 2361852424,
   2428436474, 2756734187, 3204031479, 3329325298]

/-- Working state of the SHA-256 compression function. -/
structure Sha8 where
  a : Nat
  b : Nat
  c : Nat
  d : Nat
  e : Nat
  f : Nat
  g : Nat
  h : Nat

/-- The SHA-256 initial hash value of FIPS 180-4 (fractional parts of the
square roots of the first 8 primes), written in decimal. -/
def shaInit : Sha8 :=
  ⟨1779033703, 3144134277, 1013904242, 2773480762,
   1359893119, 2600822924, 528734635, 1541459225⟩

/-- Merkle–Damgård padding: `0x80`, zeros to 56 mod 64, 8-byte big-endian bit length. -/
def sha256Pad (msg : List Nat) : List Nat :=
  msg ++ [0x80] ++ List.replicate ((119 - msg.length % 64) % 64) 0 ++ u64BeBytes (8 * msg.length)

/-- Big-endian 32-bit word `i` of a byte list. -/
def wordBE (bs : List Nat) (i : Nat) : Nat :=
  bs.getD (4 * i) 0 * 2 ^ 24 + bs.getD (4 * i + 1) 0 * 2 ^ 16 +
  bs.getD (4 * i + 2) 0 * 2 ^ 8 + bs.getD (4 * i + 3) 0

/-- Message schedule: 16 block words extended to 64. -/
def shaSchedule (block : List Nat) : List Nat :=
  (List.range 48).foldl
    (fun w _ =>
      w ++ [(shaSSig1 (w.getD (w.length - 2) 0) + w.getD (w.length - 7) 0 +
             shaSSig0 (w.getD (w.length - 15) 0) + w.getD (w.length - 16) 0) % 2 ^ 32])
    ((List.range 16).map (wordBE block))

/-- One SHA-256 round. -/
def shaRound (st : Sha8) (ki wi : Nat) : Sha8 :=
  let t1 := (st.h + shaBSig1 st.e + shaCh st.e st.f st.g + ki + wi) % 2 ^ 32
  let t2 := (shaBSig0 st.a + shaMaj st.a st.b st.c) % 2 ^ 32
  ⟨(t1 + t2) % 2 ^ 32, st.a, st.b, st.c, (st.d + t1) % 2 ^ 32, st.e, st.f, st.g⟩

/-- Compression of one 64-byte block. -/
def shaCompress (hs : Sha8) (block : List Nat) : Sha8 :=
  let w := shaSchedule block
  let st := (List.range 64).foldl (fun st i => shaRound st (shaK.getD i 0) (w.getD i 0)) hs
  ⟨(hs.a + st.a) % 2 ^ 32, (hs.b + st.b) % 2 ^ 32, (hs.c + st.c) % 2 ^ 32,
   (hs.d + st.d) % 2 ^ 32, (hs.e + st.e) % 2 ^ 32, (hs.f + st.f) % 2 ^ 32,
   (hs.g + st.g) % 2 ^ 32, (hs.h + st.h) % 2 ^ 32⟩

/-- SHA-256 digest (32 bytes) of a byte string. -/
def sha256 (msg : List Nat) : List Nat :=
  let padded := sha256Pad msg
  let final := (List.range (padded.length / 64)).foldl
    (fun hs i => shaCompress hs ((padded.drop (64 * i)).take 64)) shaInit
  u32BeBytes final.a ++ u32BeBytes final.b ++ u32BeBytes final.c ++ u32BeBytes final.d ++
  u32BeBytes final.e ++ u32BeBytes final.f ++ u32BeBytes final.g ++ u32BeBytes final.h

/-! ## HMAC-SHA256 and HKDF (the `hkdf` crate usage in `derive_session`:
no salt, info `"ghostlink_v1_session"`, 32-byte output — a single expand block) -/

/-- HMAC-SHA256. -/
def hmacSha256 (key msg : List Nat) : List Nat :=
  let k1 := if 64 < key.length then sha256 key else key
  let k0 := k1 ++ List.replicate (64 - k1.length) 0
  sha256 ((k0.map (fun b => b ^^^ 0x5c)) ++ sha256 ((k0.map (fun b => b ^^^ 0x36)) ++ msg))

/-- HKDF-SHA256 with absent salt (zero-filled key) and a 32-byte output:
extract then a single expand block `T(1) = HMAC(PRK, info ‖ 0x01)`. -/
def hkdfSha256Expand32 (ikm info : List Nat) : List Nat :=
  hmacSha256 (hmacSha256 (List.replicate 32 0) ikm) (info ++ [1])

/-! ## Encryption modes and the AEAD interface

The `EncryptionMode` enum is declared in the crate's `config` module; its two
variants appear throughout `crypto.rs` and `handshake.rs`. -/

/-- The negotiated AEAD algorithm (`config::EncryptionMode`). -/
inductive EncryptionMode
  | ChaCha20Poly1305
  | Aes256Gcm
deriving DecidableEq, Repr

/-- Interface of the external AEAD crates (`chacha20poly1305`, `aes-gcm`)
as used by `CipherAlgo`: encryption and decryption keyed by a 12-byte nonce,
together with the documented contract of those crates — decrypting an
encryption returns the plaintext, and a successful decryption is exactly
16 bytes (the Poly1305 / GCM authentication tag) shorter than its input. -/
structure Aead where
  enc : List Nat → List Nat → Option (List Nat)
  dec : List Nat → List Nat → Option (List Nat)
  enc_dec : ∀ nonce p c, enc nonce p = some c → dec nonce c = some p
  dec_len : ∀ nonce c p, dec nonce c = some p → p.length + 16 = c.length

/-- `crypto::CipherAlgo` — the session's encryption engine. -/
inductive CipherAlgo
  | ChaCha20 (cipher : Aead)
  | Aes256 (cipher : Aead)

/-- The underlying AEAD instance of either variant. -/
def CipherAlgo.aead : CipherAlgo → Aead
  | .ChaCha20 cipher => cipher
  | .Aes256 cipher => cipher

/-- The 12-byte nonce both `CipherAlgo::encrypt` and `CipherAlgo::decrypt`
build from the counter: `nonce_bytes = [0u8; 12]` with
`nonce_bytes[4..] = nonce_val.to_be_bytes()`. -/
def aeadNonceBytes (nonce_val : Nat) : List Nat :=
  List.replicate 4 0 ++ u64BeBytes nonce_val

/-- `CipherAlgo::encrypt` — both arms build the same counter nonce and call
the variant's AEAD. -/
def CipherAlgo.encrypt : CipherAlgo → Nat → List Nat → Option (List Nat)
  | .ChaCha20 cipher, nonce_val, plaintext => cipher.enc (aeadNonceBytes nonce_val) plaintext
  | .Aes256 cipher, nonce_val, plaintext => cipher.enc (aeadNonceBytes nonce_val) plaintext

/-- `CipherAlgo::decrypt` — same nonce construction, authenticated decryption. -/
def CipherAlgo.decrypt : CipherAlgo → Nat → List Nat → Option (List Nat)
  | .ChaCha20 cipher, nonce_val, ciphertext => cipher.dec (aeadNonceBytes nonce_val) ciphertext
  | .Aes256 cipher, nonce_val, ciphertext => cipher.dec (aeadNonceBytes nonce_val) ciphertext

theorem CipherAlgo.decrypt_len (c : CipherAlgo) (n : Nat) (ct pt : List Nat)
    (h : c.decrypt n ct = some pt) : pt.length + 16 = ct.length := by
  cases c with
  | ChaCha20 cipher => exact cipher.dec_len _ _ _ h
  | Aes256 cipher => exact cipher.dec_len _ _ _ h

/-- A concrete AEAD satisfying the interface contract (appends a 16-byte tag);
used to evaluate the session-layer definitions on explicit inputs. -/
def padTagAead : Aead where
  enc := fun _ p => some (p ++ List.replicate 16 0)
  dec := fun _ c => if 16 ≤ c.length then some (c.take (c.length - 16)) else none
  enc_dec := by
    intro nonce p c h
    simp only [Option.some.injEq] at h
    subst h
    simp only []
    have hlen : (p ++ List.replicate 16 0).length = p.length + 16 := by simp
    rw [hlen]
    have h16 : 16 ≤ p.length + 16 := by omega
    rw [if_pos h16]
    have : p.length + 16 - 16 = p.length := by omega
    rw [this]
    simp [List.take_left']
  dec_len := by
    intro nonce c p h
    by_cases hc : 16 ≤ c.length
    · simp only [hc, if_pos] at h
      have hp : p = c.take (c.length - 16) := by
        simpa using h.symm
      subst hp
      simp only [List.length_take]
      omega
    · simp [hc] at h

/-! ## Session derivation (`crypto::derive_session`)

The X25519 Diffie–Hellman primitive of the `x25519_dalek` crate and the AEAD
constructors (`ChaCha20Poly1305::new_from_slice`, `Aes256Gcm::new_from_slice`)
are external; `derive_session` takes them as explicit parameters `dh`,
`mkChaCha`, `mkAes`. Everything else — HKDF key expansion, key sorting, hash
and rendering of the fingerprint — is embedded from the source. -/

/-- `crypto::SessionData`. -/
structure SessionData where
  cipher : CipherAlgo
  fingerprint : String

/-- Render the first three digest bytes as uppercase hex separated by single
spaces (the fingerprint format string of `derive_session`). -/
def renderFingerprint (hash : List Nat) : String :=
  hexByte (hash.getD 0 0) ++ " " ++ hexByte (hash.getD 1 0) ++ " " ++ hexByte (hash.getD 2 0)

/-- `crypto::derive_session`: ECDH, HKDF-SHA256 with info
`"ghostlink_v1_session"`, cipher instantiation for the negotiated mode, and
the SAS fingerprint over the sorted public keys. The source returns `Result`,
but its two failure points (HKDF expansion, cipher key length) cannot fire for
32-byte outputs, so the embedding is total. -/
def derive_session (dh : List Nat → List Nat → List Nat)
    (mkChaCha mkAes : List Nat → Aead)
    (private_key : List Nat) (peer_public_bytes : List Nat)
    (mode : EncryptionMode) (my_public_bytes : List Nat) : SessionData :=
  let shared_secret := dh private_key peer_public_bytes
  let key_material := hkdfSha256Expand32 shared_secret (strBytes "ghostlink_v1_session")
  let cipher := match mode with
    | .ChaCha20Poly1305 => CipherAlgo.ChaCha20 (mkChaCha key_material)
    | .Aes256Gcm => CipherAlgo.Aes256 (mkAes key_material)
  let keys := sortPair my_public_bytes peer_public_bytes
  let hash := sha256 (strBytes "ghostlink_fingerprint" ++ keys.1 ++ keys.2)
  { cipher := cipher, fingerprint := renderFingerprint hash }

/-- Lexicographic minimum of two byte strings (the spec's `min(pkA, pkB)`). -/
def lexMinBytes (a b : List Nat) : List Nat :=
  if bytesCmp a b = .gt then b else a

/-- Lexicographic maximum of two byte strings (the spec's `max(pkA, pkB)`). -/
def lexMaxBytes (a b : List Nat) : List Nat :=
  if bytesCmp a b = .gt then a else b

/-- The fingerprint as the specification words it: first 3 bytes of SHA-256
over `"ghostlink_fingerprint" ‖ min(pkA, pkB) ‖ max(pkA, pkB)`, rendered
uppercase hex with single-space separators. -/
def specFingerprint (pkA pkB : List Nat) : String :=
  renderFingerprint
    (sha256 (strBytes "ghostlink_fingerprint" ++ lexMinBytes pkA pkB ++ lexMaxBytes pkA pkB))

theorem sortPair_eq_lex (a b : List Nat) :
    sortPair a b = (lexMinBytes a b, lexMaxBytes a b) := by
  unfold sortPair lexMinBytes lexMaxBytes
  by_cases h : bytesCmp a b = .gt <;> simp [h]

/-! ## Shared state (`web::shared_state`) -/

/-- `shared_state::Status`. -/
inductive Status
  | Disconnected
  | Punching
  | Connected
deriving DecidableEq, Repr

/-! ## Handshake wire messages (`handshake::HandshakeMsg`) -/

/-- A peer public key: the raw bytes of `[u8; 32]`. -/
abbrev PubKey := List Nat

/-- `handshake::HandshakeMsg`. -/
inductive HandshakeMsg
  | Syn (public_key : PubKey) (cipher_mode : EncryptionMode)
  | SynAck (public_key : PubKey)
  | Bye
deriving DecidableEq, Repr

/-! ## The handshake loop (`handshake::handshake`)

The loop is embedded as a step function over the events the `tokio::select!`
loop can observe in one iteration, threaded over an explicit event list.
Socket sends and receives are environmental: each event carries the outcome
the corresponding system call produced. The loop-local variables and the
status stored in the shared state form the machine state. -/

/-- Loop-local handshake state plus the observable shared status. -/
structure HsState where
  peer_pub_key : Option PubKey
  received_syn_ack : Bool
  sent_syn_ack : Bool
  lingering : Bool
  status : Status
deriving DecidableEq, Repr

/-- State at loop entry: on entry the routine generates keys and sets
`Status::Punching` before the first iteration. -/
def initialHsState : HsState :=
  { peer_pub_key := none, received_syn_ack := false, sent_syn_ack := false,
    lingering := false, status := Status.Punching }

/-- One observable occurrence in a loop iteration.
`timeoutFired`: the elapsed-time check at the top of the loop trips.
`lingerExpired`: the linger deadline check at the top of the loop trips.
`packet sender msg sendOk`: `recv_from` returned a datagram; `msg = none`
means bincode failed to deserialize it; `sendOk` is the outcome of the
`send_to` reply this branch may attempt.
`sockError`: `recv_from` itself errored.
`tick sendOk`: the 500 ms send interval fired; `sendOk` is the outcome of the
SYN transmission. -/
inductive HsEvent
  | timeoutFired
  | lingerExpired
  | packet (sender : Nat) (msg : Option HandshakeMsg) (sendOk : Bool)
  | sockError
  | tick (sendOk : Bool)
deriving DecidableEq, Repr

/-- Failure reasons of the handshake routine. -/
inductive HsError
  | timeout
  | socketRead
  | sendFailed
  | modeMismatch
  | rejected
  | noKey
deriving DecidableEq, Repr

/-- Outcome of processing one event. -/
inductive HsStep
  | cont (s : HsState)
  | fail (e : HsError) (s : HsState)
  | finish (s : HsState)
deriving DecidableEq, Repr

/-- The state carried by a step outcome. -/
def HsStep.state : HsStep → HsState
  | .cont s => s
  | .fail _ s => s
  | .finish s => s

/-- Process one event of the handshake loop (`handshake.rs`, lines 89–231). -/
def hsProcess (my_mode : EncryptionMode) (peer_addr : Nat) (s : HsState) :
    HsEvent → HsStep
  | .timeoutFired =>
      -- set_status(Punching, timed-out message, 0), then bail
      .fail .timeout { s with status := Status.Punching }
  | .lingerExpired =>
      if s.lingering then .finish s else .cont s
  | .sockError =>
      -- `result.context("Socket read error")?`
      .fail .socketRead s
  | .tick sendOk =>
      if s.lingering then
        -- redundant SynAck, errors discarded with `.ok()`
        .cont s
      else if s.received_syn_ack then
        .cont s
      else if sendOk then
        -- SYN sent, set_status(Punching, "Exchanging Keys...")
        .cont { s with status := Status.Punching }
      else
        -- `.context("Failed to send packet")?`
        .fail .sendFailed s
  | .packet sender msg sendOk =>
      if sender ≠ peer_addr then
        -- debug-logged, ignored
        .cont s
      else
        match msg with
        | none =>
            -- bincode deserialization failed: ignored
            .cont s
        | some (.Syn pk mode) =>
            match s.peer_pub_key with
            | some existing =>
                if existing ≠ pk then
                  -- key pinned: different key ignored
                  .cont s
                else if mode ≠ my_mode then
                  .fail .modeMismatch s
                else if sendOk then
                  .cont { s with sent_syn_ack := true, status := Status.Punching }
                else
                  .fail .sendFailed s
            | none =>
                if mode ≠ my_mode then
                  .fail .modeMismatch { s with peer_pub_key := some pk }
                else if sendOk then
                  .cont { s with peer_pub_key := some pk, sent_syn_ack := true, status := Status.Punching }
                else
                  .fail .sendFailed { s with peer_pub_key := some pk }
        | some (.SynAck pk) =>
            match s.peer_pub_key with
            | some existing =>
                if existing ≠ pk then
                  .cont s
                else
                  .cont { s with received_syn_ack := true, status := Status.Punching }
            | none =>
                .cont { s with peer_pub_key := some pk, received_syn_ack := true, status := Status.Punching }
        | some .Bye =>
            -- set_status(Punching, "Connection rejected by peer"), then bail
            .fail .rejected { s with status := Status.Punching }

/-- Loop-top linger entry: once `received_syn_ack && sent_syn_ack`, the next
iteration sets the linger deadline before selecting on events. -/
def hsNorm (s : HsState) : HsState :=
  if ¬ s.lingering ∧ s.received_syn_ack ∧ s.sent_syn_ack then
    { s with lingering := true }
  else s

/-- Result of the whole routine. -/
inductive HsRunResult
  | running (s : HsState)
  | failed (e : HsError) (s : HsState)
  | succeeded (peer_pk : PubKey) (s : HsState)
deriving DecidableEq, Repr

/-- The state carried by a run result. -/
def HsRunResult.state : HsRunResult → HsState
  | .running s => s
  | .failed _ s => s
  | .succeeded _ s => s

/-- Post-loop epilogue (`handshake.rs`, lines 233–258): derive the session
from the pinned key, publish fingerprint and algorithm, set
`Status::Connected`; bail with "No public key received" when nothing was
pinned. -/
def hsFinish (s : HsState) : HsRunResult :=
  match s.peer_pub_key with
  | some pk => .succeeded pk { s with status := Status.Connected }
  | none => .failed .noKey s

/-- Run the handshake loop over a list of events. An exhausted list with no
termination means the routine is still looping (`running`). -/
def hsRun (my_mode : EncryptionMode) (peer_addr : Nat) :
    HsState → List HsEvent → HsRunResult
  | s, [] => .running s
  | s, e :: rest =>
      match hsProcess my_mode peer_addr s e with
      | .cont s1 => hsRun my_mode peer_addr (hsNorm s1) rest
      | .fail err s1 => .failed err s1
      | .finish s1 => hsFinish s1

/-- First public key carried by a `Syn` or `SynAck` from the peer address in
an event list. -/
def firstPeerKey (peer_addr : Nat) : List HsEvent → Option PubKey
  | [] => none
  | .packet sender (some (.Syn pk _)) _ :: rest =>
      if sender = peer_addr then some pk else firstPeerKey peer_addr rest
  | .packet sender (some (.SynAck pk)) _ :: rest =>
      if sender = peer_addr then some pk else firstPeerKey peer_addr rest
  | _ :: rest => firstPeerKey peer_addr rest

/-! ## STUN client (`net.rs`) -/

/-- An IP address and port (`std::net::SocketAddr`). -/
structure SockAddr where
  ip : Nat
  port : Nat
deriving DecidableEq, Repr

/-- `shared_state::NatType`. -/
inductive NatType
  | Unknown
  | Cone
  | Symmetric
deriving DecidableEq, Repr

/-- The error kinds `resolve_public_ip` can produce, in source order. -/
inductive StunError
  | dnsResolution
  | sendFailed
  | stunTimeout
  | recvFailed
  | parseFailed
  | securityMismatch
  | noXorMappedAddress
deriving DecidableEq, Repr

/-- A STUN response after `unmarshal_binary`: its transaction id and the
optional XOR-MAPPED-ADDRESS attribute. -/
structure StunResponse where
  transaction_id : Nat
  xor_mapped_address : Option SockAddr
deriving DecidableEq, Repr

/-- The outcome of the timed `recv_from` in `resolve_public_ip`. -/
inductive StunRecv
  | timedOut
  | recvError
  | bytes (parsed : Option StunResponse)
deriving DecidableEq, Repr

/-- The environment one call of `resolve_public_ip` observes: the DNS lookup
result (`none` covers lookup failure and an empty address list), the `send_to`
outcome, the receive outcome, and the freshly-randomized transaction id of the
Binding Request it builds. -/
structure StunEnv where
  dns_result : Option SockAddr
  send_ok : Bool
  recv_result : StunRecv
  tx_id : Nat
deriving DecidableEq, Repr

/-- `net::resolve_public_ip` (lines 64–126): resolve DNS, send a Binding
Request, await one response, validate its transaction id, extract
XOR-MAPPED-ADDRESS. There is no receive loop: a single response is processed
and any mismatch is returned as an error, never silently retried. -/
def resolve_public_ip (env : StunEnv) : Except StunError SockAddr :=
  match env.dns_result with
  | none => .error .dnsResolution
  | some _target =>
    if env.send_ok then
      match env.recv_result with
      | .timedOut => .error .stunTimeout
      | .recvError => .error .recvFailed
      | .bytes none => .error .parseFailed
      | .bytes (some response) =>
          if response.transaction_id ≠ env.tx_id then
            .error .securityMismatch
          else
            match response.xor_mapped_address with
            | none => .error .noXorMappedAddress
            | some addr => .ok addr
    else .error .sendFailed

/-- `net::get_nat_type` (lines 143–161): resolve against the second STUN
server; `map_or_else` turns any error into `Unknown` and otherwise compares
the observed reflexive address with `prev_addr`. -/
def get_nat_type (env : StunEnv) (prev_addr : SockAddr) : NatType :=
  match resolve_public_ip env with
  | .error _ => NatType.Unknown
  | .ok public_ip => if prev_addr = public_ip then NatType.Cone else NatType.Symmetric

/-! ## Event bus (`web::shared_state`)

`AppState`'s broadcast channel is modelled as an appended event log; the
state snapshot carried by a `Disconnected` event is represented by its
status field. -/

/-- `shared_state::AppEvent`. The `ClearChat` variant and the `clear_chat`
emitter are referenced from `message_manager.rs` but their declarations are
not among the sources; the variant is taken from the spec's event taxonomy. -/
inductive AppEvent
  | Disconnected (snapshotStatus : Status)
  | Punching (timeout : Option Nat) (message : Option String)
  | Connected (message : Option String)
  | Message (content : String) (from_me : Bool)
  | ClearChat
deriving DecidableEq, Repr

/-- The mutable shared state: the status plus the log of broadcast events. -/
structure AppStateM where
  status : Status
  events : List AppEvent
deriving DecidableEq, Repr

/-- `AppState::broadcast_status_change`: build the event from the current
status and publish it. -/
def broadcast_status_change (st : AppStateM) (message : Option String)
    (tmo : Option Nat) : AppStateM :=
  let ev := match st.status with
    | Status.Disconnected => AppEvent.Disconnected st.status
    | Status.Punching => AppEvent.Punching tmo message
    | Status.Connected => AppEvent.Connected message
  { st with events := st.events ++ [ev] }

/-- `AppState::set_status`: update the status, then broadcast. -/
def set_status (st : AppStateM) (s : Status) (message : Option String)
    (tmo : Option Nat) : AppStateM :=
  broadcast_status_change { st with status := s } message tmo

/-- Modelled from the spec: `AppState::clear_chat` — called by
`MessageManager::disconnect_internal` but absent from the sources — emits a
`ClearChat` event to subscribers (spec §3 AppEvent taxonomy and §4.5
disconnect behavior). -/
def clear_chat (st : AppStateM) : AppStateM :=
  { st with events := st.events ++ [AppEvent.ClearChat] }

/-! ## Message manager (`messaging::message_manager`) -/

/-- `message_manager::StreamMessage`. -/
inductive StreamMessage
  | Text (content : String)
  | Bye
deriving DecidableEq, Repr

/-- `message_manager::MessageManager`: the connection-lifecycle state. The
shared UDP socket and the state handle are environmental; the KCP stream is
represented by its presence. -/
structure MessageManager where
  peer_addr : Option Nat
  kcp_stream : Option Unit
  cipher : Option CipherAlgo
  tx_nonce : Nat
  rx_nonce : Nat

/-- `MessageManager::new`: disconnected, no cipher, counters zero. -/
def MessageManager.new : MessageManager :=
  { peer_addr := none, kcp_stream := none, cipher := none, tx_nonce := 0, rx_nonce := 0 }

/-- Error kinds surfaced by the manager's operations. -/
inductive MmError
  | noStream
  | noCipher
  | encryptFailed
  | writeFailed
  | readFailed
  | decryptFailed
  | bufferTooSmall
  | notHandshaken
  | connectFailed
deriving DecidableEq, Repr

/-- `MessageManager::handshake` (lines 86–129): drive the handshake routine;
on success install the cipher, set the peer address and reset both nonce
counters; on failure leave the manager untouched and set the shared status to
`Disconnected`. `none` when the given events do not terminate the loop. -/
def mm_handshake (dh : List Nat → List Nat → List Nat)
    (mkChaCha mkAes : List Nat → Aead) (my_priv my_pub : PubKey)
    (my_mode : EncryptionMode) (peer_addr : Nat) (m : MessageManager)
    (s0 : HsState) (evs : List HsEvent) :
    Option (Except HsError Unit × MessageManager × Status) :=
  match hsRun my_mode peer_addr s0 evs with
  | .running _ => none
  | .failed e _ => some (.error e, m, Status.Disconnected)
  | .succeeded pk sF =>
      let session := derive_session dh mkChaCha mkAes my_priv pk my_mode my_pub
      some (.ok (), { m with peer_addr := some peer_addr, cipher := some session.cipher, tx_nonce := 0, rx_nonce := 0 }, sF.status)

/-- `MessageManager::upgrade_to_kcp` (lines 145–174): requires a peer
address; mounts the reliable stream. `connect_ok` is the outcome of the KCP
connect call. -/
def upgrade_to_kcp (m : MessageManager) (connect_ok : Bool) :
    Except MmError Unit × MessageManager :=
  match m.peer_addr with
  | none => (.error .notHandshaken, m)
  | some _ =>
      if connect_ok then (.ok (), { m with kcp_stream := some () })
      else (.error .connectFailed, m)

/-- `MessageManager::send_secure` (lines 191–208): encrypt at `tx_nonce`,
increment `tx_nonce`, then write; `write_ok` is the outcome of
`write_all` + `flush`. -/
def send_secure (m : MessageManager) (write_ok : Bool) (payload : List Nat) :
    Except MmError Unit × MessageManager :=
  match m.kcp_stream with
  | none => (.error .noStream, m)
  | some _ =>
    match m.cipher with
    | none => (.error .noCipher, m)
    | some cipher =>
      match cipher.encrypt m.tx_nonce payload with
      | none => (.error .encryptFailed, m)
      | some _ciphertext =>
          let m1 := { m with tx_nonce := m.tx_nonce + 1 }
          if write_ok then (.ok (), m1) else (.error .writeFailed, m1)

/-- The outcome of the stream read in `receive_message`. -/
inductive ReadOutcome
  | readError
  | bytes (data : List Nat)
deriving DecidableEq, Repr

/-- Number of bytes a read outcome placed in the buffer. -/
def ReadOutcome.len : ReadOutcome → Nat
  | .readError => 0
  | .bytes data => data.length

/-- `MessageManager::receive_message` (lines 219–246): read into the buffer,
return `Ok(0)` on a zero-length read, otherwise decrypt at `rx_nonce`,
increment `rx_nonce`, and copy the plaintext back if it fits. `buf_len` is
the caller's buffer capacity; the read data never exceeds it. -/
def receive_message (m : MessageManager) (read_result : ReadOutcome)
    (buf_len : Nat) : Except MmError Nat × MessageManager :=
  match m.kcp_stream with
  | none => (.error .noStream, m)
  | some _ =>
    match read_result with
    | .readError => (.error .readFailed, m)
    | .bytes data =>
      if data.length = 0 then (.ok 0, m)
      else
        match m.cipher with
        | none => (.error .noCipher, m)
        | some cipher =>
          match cipher.decrypt m.rx_nonce data with
          | none => (.error .decryptFailed, m)
          | some plaintext =>
              let m1 := { m with rx_nonce := m.rx_nonce + 1 }
              if buf_len < plaintext.length then (.error .bufferTooSmall, m1)
              else (.ok plaintext.length, m1)

/-- bincode serialization of `StreamMessage` (derive `Serialize` with
bincode's default wire format: `u32` little-endian variant tag; strings as a
`u64` little-endian length followed by UTF-8 bytes). -/
def serialize_stream_message : StreamMessage → List Nat
  | .Text content => u32LeBytes 0 ++ u64LeBytes (strBytes content).length ++ strBytes content
  | .Bye => u32LeBytes 1

/-- `MessageManager::close_kcp` (lines 393–406): take the stream, shut it
down best-effort (errors only logged), drop it. -/
def close_kcp (m : MessageManager) : MessageManager :=
  { m with kcp_stream := none }

/-- `MessageManager::disconnect_internal` (lines 329–382): optionally send a
Bye (AEAD-framed over KCP when stream and cipher are up — which may advance
`tx_nonce` — falling back to a raw UDP `HandshakeMsg::Bye`), close the KCP
stream, reset the connection state, clear the chat, set the shared status to
`Disconnected`. `write_ok` is the stream-write outcome of the Bye attempt. -/
def disconnect_internal (m : MessageManager) (st : AppStateM)
    (send_bye : Bool) (write_ok : Bool) : MessageManager × AppStateM :=
  let m1 :=
    if send_bye then
      match m.peer_addr with
      | none => m
      | some _ =>
          if m.kcp_stream.isSome ∧ m.cipher.isSome then
            (send_secure m write_ok (serialize_stream_message .Bye)).2
          else m
    else m
  let m2 := close_kcp m1
  let m3 := { m2 with peer_addr := none, cipher := none, tx_nonce := 0, rx_nonce := 0 }
  let st1 := clear_chat st
  let st2 := set_status st1 Status.Disconnected (some "Disconnected from peer") none
  (m3, st2)

/-- `MessageManager::disconnect`. -/
def disconnect (m : MessageManager) (st : AppStateM) (write_ok : Bool) :
    MessageManager × AppStateM :=
  disconnect_internal m st true write_ok

/-- `MessageManager::disconnect_on_bye_received`. -/
def disconnect_on_bye_received (m : MessageManager) (st : AppStateM) :
    MessageManager × AppStateM :=
  disconnect_internal m st false true

/-! ## Handshake wire format (C6)

`HandshakeMsg` derives `Serialize`; bincode's default configuration writes
enum variant tags as little-endian `u32` values and fixed-size byte arrays as
their raw bytes. -/

/-- Modelled from the spec: the serialized byte of `EncryptionMode`
(its declaration in `config.rs` is not among the sources; spec §6 fixes the
1-byte discriminant, 0 = ChaCha20-Poly1305, 1 = AES-256-GCM). -/
def encryptionModeByte : EncryptionMode → Nat
  | .ChaCha20Poly1305 => 0
  | .Aes256Gcm => 1

/-- bincode serialization of `HandshakeMsg`: little-endian `u32` variant tag
in declaration order, then the variant's fields. -/
def serialize_handshake_msg : HandshakeMsg → List Nat
  | .Syn pk mode => u32LeBytes 0 ++ pk ++ [encryptionModeByte mode]
  | .SynAck pk => u32LeBytes 1 ++ pk
  | .Bye => u32LeBytes 2

/-! ## Handshake invariants: key pinning -/

theorem hsNorm_key (s : HsState) : (hsNorm s).peer_pub_key = s.peer_pub_key := by
  unfold hsNorm
  split <;> rfl

theorem hsProcess_key_mono (my_mode : EncryptionMode) (peer_addr : Nat)
    (s : HsState) (k : PubKey) (e : HsEvent) (h : s.peer_pub_key = some k) :
    ((hsProcess my_mode peer_addr s e).state).peer_pub_key = some k := by
  cases e with
  | timeoutFired => simpa [hsProcess, HsStep.state] using h
  | lingerExpired =>
      by_cases hl : s.lingering <;> simp [hsProcess, HsStep.state, hl, h]
  | sockError => simpa [hsProcess, HsStep.state] using h
  | tick sendOk =>
      simp only [hsProcess]
      by_cases hl : s.lingering
      · simp [hl, HsStep.state, h]
      · by_cases h2 : s.received_syn_ack
        · simp [hl, h2, HsStep.state, h]
        · by_cases h3 : sendOk = true <;> simp [hl, h2, h3, HsStep.state, h]
  | packet sender msg sendOk =>
      simp only [hsProcess]
      by_cases hs : sender ≠ peer_addr
      · simp [hs, HsStep.state, h]
      · rw [if_neg hs]
        cases msg with
        | none => simp [HsStep.state, h]
        | some m =>
            cases m with
            | Syn pk mode =>
                rw [h]
                by_cases h1 : k ≠ pk
                · simp [h1, HsStep.state, h]
                · by_cases h2 : mode ≠ my_mode
                  · simp [h1, h2, HsStep.state, h]
                  · by_cases h3 : sendOk = true <;> simp [h1, h2, h3, HsStep.state, h]
            | SynAck pk =>
                rw [h]
                by_cases h1 : k ≠ pk <;> simp [h1, HsStep.state, h]
            | Bye => simp [HsStep.state, h]

theorem hsRun_key_mono (my_mode : EncryptionMode) (peer_addr : Nat) (k : PubKey) :
    ∀ (evs : List HsEvent) (s : HsState), s.peer_pub_key = some k →
      ((hsRun my_mode peer_addr s evs).state).peer_pub_key = some k := by
  intro evs
  induction evs with
  | nil => intro s h; simpa [hsRun, HsRunResult.state] using h
  | cons e rest ih =>
      intro s h
      simp only [hsRun]
      have hmono := hsProcess_key_mono my_mode peer_addr s k e h
      cases hp : hsProcess my_mode peer_addr s e with
      | cont s1 =>
          rw [hp] at hmono
          exact ih (hsNorm s1) (by rw [hsNorm_key]; exact hmono)
      | fail err s1 =>
          rw [hp] at hmono
          simpa [HsRunResult.state] using hmono
      | finish s1 =>
          rw [hp] at hmono
          simp only [HsStep.state] at hmono
          simp [hsFinish, hmono, HsRunResult.state]

theorem hsRun_succeeded_key (my_mode : EncryptionMode) (peer_addr : Nat) (k : PubKey) :
    ∀ (evs : List HsEvent) (s : HsState), s.peer_pub_key = some k →
      ∀ (pk : PubKey) (sF : HsState),
        hsRun my_mode peer_addr s evs = .succeeded pk sF → pk = k := by
  intro evs
  induction evs with
  | nil => intro s h pk sF hr; simp [hsRun] at hr
  | cons e rest ih =>
      intro s h pk sF hr
      simp only [hsRun] at hr
      have hmono := hsProcess_key_mono my_mode peer_addr s k e h
      cases hp : hsProcess my_mode peer_addr s e with
      | cont s1 =>
          rw [hp] at hr hmono
          exact ih (hsNorm s1) (by rw [hsNorm_key]; exact hmono) pk sF hr
      | fail err s1 => rw [hp] at hr; simp at hr
      | finish s1 =>
          rw [hp] at hr hmono
          simp only [HsStep.state] at hmono
          simp [hsFinish, hmono] at hr
          exact (hr.1).symm

theorem hsRun_first_key (my_mode : EncryptionMode) (peer_addr : Nat) :
    ∀ (evs : List HsEvent) (s : HsState), s.peer_pub_key = none →
      ∀ (pk : PubKey) (sF : HsState),
        hsRun my_mode peer_addr s evs = .succeeded pk sF →
        firstPeerKey peer_addr evs = some pk := by
  intro evs
  induction evs with
  | nil => intro s h pk sF hr; simp [hsRun] at hr
  | cons e rest ih =>
      intro s h pk sF hr
      simp only [hsRun] at hr
      cases e with
      | timeoutFired => simp [hsProcess] at hr
      | sockError => simp [hsProcess] at hr
      | lingerExpired =>
          by_cases hl : s.lingering
          · simp [hsProcess, hl, hsFinish, h] at hr
          · simp only [hsProcess, hl, if_false] at hr
            rw [show firstPeerKey peer_addr (HsEvent.lingerExpired :: rest)
                  = firstPeerKey peer_addr rest from rfl]
            exact ih (hsNorm s) (by rw [hsNorm_key]; exact h) pk sF hr
      | tick sendOk =>
          rw [show firstPeerKey peer_addr (HsEvent.tick sendOk :: rest)
                = firstPeerKey peer_addr rest from rfl]
          simp only [hsProcess] at hr
          by_cases hl : s.lingering
          · rw [if_pos hl] at hr
            exact ih (hsNorm s) (by rw [hsNorm_key]; exact h) pk sF hr
          · rw [if_neg hl] at hr
            by_cases h2 : s.received_syn_ack
            · rw [if_pos h2] at hr
              exact ih (hsNorm s) (by rw [hsNorm_key]; exact h) pk sF hr
            · rw [if_neg h2] at hr
              by_cases h3 : sendOk = true
              · rw [if_pos h3] at hr
                exact ih (hsNorm { s with status := Status.Punching })
                  (by rw [hsNorm_key]; exact h) pk sF hr
              · rw [if_neg h3] at hr
                simp at hr
      | packet sender msg sendOk =>
          simp only [hsProcess] at hr
          by_cases hs : sender = peer_addr
          · have hcond : ¬ (sender ≠ peer_addr) := by simpa using hs
            rw [if_neg hcond] at hr
            subst hs
            cases msg with
            | none =>
                rw [show firstPeerKey sender (HsEvent.packet sender none sendOk :: rest)
                      = firstPeerKey sender rest from rfl]
                exact ih (hsNorm s) (by rw [hsNorm_key]; exact h) pk sF hr
            | some m =>
                cases m with
                | Syn pk0 mode =>
                    simp only [h] at hr
                    have hfk : firstPeerKey sender
                        (HsEvent.packet sender (some (HandshakeMsg.Syn pk0 mode)) sendOk :: rest)
                        = some pk0 := by simp [firstPeerKey]
                    rw [hfk]
                    by_cases h1 : mode ≠ my_mode
                    · rw [if_pos h1] at hr
                      simp at hr
                    · rw [if_neg h1] at hr
                      by_cases h2 : sendOk = true
                      · rw [if_pos h2] at hr
                        have hr2 : hsRun my_mode sender
                            (hsNorm { s with peer_pub_key := some pk0, sent_syn_ack := true, status := Status.Punching })
                            rest = .succeeded pk sF := hr
                        have hkey : (hsNorm { s with peer_pub_key := some pk0, sent_syn_ack := true, status := Status.Punching }).peer_pub_key
                              = some pk0 := by rw [hsNorm_key]
                        have hpk := hsRun_succeeded_key my_mode sender pk0 rest _ hkey pk sF hr2
                        rw [hpk]
                      · rw [if_neg h2] at hr
                        simp at hr
                | SynAck pk0 =>
                    simp only [h] at hr
                    have hfk : firstPeerKey sender
                        (HsEvent.packet sender (some (HandshakeMsg.SynAck pk0)) sendOk :: rest)
                        = some pk0 := by simp [firstPeerKey]
                    rw [hfk]
                    have hr2 : hsRun my_mode sender
                        (hsNorm { s with peer_pub_key := some pk0, received_syn_ack := true, status := Status.Punching })
                        rest = .succeeded pk sF := hr
                    have hkey : (hsNorm { s with peer_pub_key := some pk0, received_syn_ack := true, status := Status.Punching }).peer_pub_key
                          = some pk0 := by rw [hsNorm_key]
                    have hpk := hsRun_succeeded_key my_mode sender pk0 rest _ hkey pk sF hr2
                    rw [hpk]
                | Bye => simp at hr
          · rw [if_pos hs] at hr
            have hfk : firstPeerKey peer_addr (HsEvent.packet sender msg sendOk :: rest)
                = firstPeerKey peer_addr rest := by
              cases msg with
              | none => rfl
              | some m => cases m <;> simp [firstPeerKey, hs]
            rw [hfk]
            exact ih (hsNorm s) (by rw [hsNorm_key]; exact h) pk sF hr

/-! ## Claim theorems -/

/-- Claim C1: for every pair of key pairs and every encryption mode, the two
sides of `derive_session` with swapped public keys produce the same
fingerprint, namely the first 3 bytes of SHA-256 over
`"ghostlink_fingerprint"` followed by the lexicographic min then max of the
two public keys, rendered as uppercase hex with single-space separators. -/
theorem derive_session_fingerprint_symmetric
    (dh : List Nat → List Nat → List Nat) (mkChaCha mkAes : List Nat → Aead)
    (privA privB pkA pkB : List Nat) (mode : EncryptionMode) :
    (derive_session dh mkChaCha mkAes privA pkB mode pkA).fingerprint
      = (derive_session dh mkChaCha mkAes privB pkA mode pkB).fingerprint
    ∧ (derive_session dh mkChaCha mkAes privA pkB mode pkA).fingerprint
      = specFingerprint pkA pkB := by
  have e1 : ∀ priv peer my : List Nat,
      (derive_session dh mkChaCha mkAes priv peer mode my).fingerprint
        = renderFingerprint (sha256 (strBytes "ghostlink_fingerprint"
            ++ (sortPair my peer).1 ++ (sortPair my peer).2)) := by
    intro priv peer my
    cases mode <;> rfl
  constructor
  · rw [e1, e1, sortPair_comm pkA pkB]
  · rw [e1, sortPair_eq_lex]
    rfl

/-- Claim C2: for every session cipher, counter and plaintext, decryption
inverts encryption at the same counter, and both operations use the 12-byte
nonce made of 4 zero bytes followed by the counter in 8-byte big-endian
form. -/
theorem cipher_roundtrip (S : CipherAlgo) (n : Nat) (p ct : List Nat)
    (henc : S.encrypt n p = some ct) :
    S.decrypt n ct = some p
    ∧ S.encrypt n p = S.aead.enc (List.replicate 4 0 ++ u64BeBytes n) p
    ∧ S.decrypt n ct = S.aead.dec (List.replicate 4 0 ++ u64BeBytes n) ct
    ∧ (aeadNonceBytes n).length = 12 := by
  cases S with
  | ChaCha20 cipher =>
      exact ⟨cipher.enc_dec _ _ _ henc, rfl, rfl, by simp [aeadNonceBytes, u64BeBytes]⟩
  | Aes256 cipher =>
      exact ⟨cipher.enc_dec _ _ _ henc, rfl, rfl, by simp [aeadNonceBytes, u64BeBytes]⟩

/-- Witness for C2 at a concrete cipher, counter and plaintext. -/
theorem cipher_roundtrip_witness :
    (CipherAlgo.ChaCha20 padTagAead).decrypt 5 ([1, 2, 3] ++ List.replicate 16 0)
      = some [1, 2, 3] :=
  (cipher_roundtrip (CipherAlgo.ChaCha20 padTagAead) 5 [1, 2, 3]
    ([1, 2, 3] ++ List.replicate 16 0) rfl).1

/-- Claim C3: whenever the handshake routine terminates in failure (timeout,
peer Bye, mode mismatch, socket error, missing key), `MessageManager::handshake`
leaves the manager untouched, surfaces the error, and the shared status is
`Disconnected`. -/
theorem handshake_failure_disconnects
    (dh : List Nat → List Nat → List Nat) (mkChaCha mkAes : List Nat → Aead)
    (my_priv my_pub : PubKey) (my_mode : EncryptionMode) (peer_addr : Nat)
    (m : MessageManager) (s0 sF : HsState) (evs : List HsEvent) (e : HsError)
    (hfail : hsRun my_mode peer_addr s0 evs = .failed e sF) :
    mm_handshake dh mkChaCha mkAes my_priv my_pub my_mode peer_addr m s0 evs
      = some (.error e, m, Status.Disconnected) := by
  unfold mm_handshake
  rw [hfail]

/-- Witness for C3: a run that times out ends with status `Disconnected`. -/
theorem handshake_failure_disconnects_witness :
    mm_handshake (fun _ _ => []) (fun _ => padTagAead) (fun _ => padTagAead)
      [] [] EncryptionMode.ChaCha20Poly1305 0 MessageManager.new initialHsState
      [HsEvent.timeoutFired]
      = some (.error HsError.timeout, MessageManager.new, Status.Disconnected) :=
  handshake_failure_disconnects (fun _ _ => []) (fun _ => padTagAead) (fun _ => padTagAead)
    [] [] EncryptionMode.ChaCha20Poly1305 0 MessageManager.new initialHsState
    initialHsState [HsEvent.timeoutFired] HsError.timeout (by decide)

/-- Claim C4: during one handshake run, once a peer key is pinned, a `Syn` or
`SynAck` from the peer address carrying a different key leaves the state
untouched; the pinned key survives any run; and a successful run derives the
session from the first key received from the peer address. -/
theorem handshake_key_pinning
    (my_mode m2 : EncryptionMode) (peer_addr : Nat) (s : HsState) (k pk : PubKey)
    (sendOk : Bool) (evs evs2 : List HsEvent) (pk2 : PubKey) (sF : HsState)
    (hpinned : s.peer_pub_key = some k) (hdiff : pk ≠ k)
    (hsucc : hsRun my_mode peer_addr initialHsState evs2 = .succeeded pk2 sF) :
    hsProcess my_mode peer_addr s (.packet peer_addr (some (.Syn pk m2)) sendOk) = .cont s
    ∧ hsProcess my_mode peer_addr s (.packet peer_addr (some (.SynAck pk)) sendOk) = .cont s
    ∧ ((hsRun my_mode peer_addr s evs).state).peer_pub_key = some k
    ∧ firstPeerKey peer_addr evs2 = some pk2 := by
  have hkne : k ≠ pk := fun hk => hdiff hk.symm
  refine ⟨?_, ?_, hsRun_key_mono my_mode peer_addr k evs s hpinned,
    hsRun_first_key my_mode peer_addr evs2 initialHsState rfl pk2 sF hsucc⟩
  · simp [hsProcess, hpinned, hkne]
  · simp [hsProcess, hpinned, hkne]

/-- Witness for C4 at a pinned state, a different key and a successful run. -/
theorem handshake_key_pinning_witness :
    hsProcess EncryptionMode.ChaCha20Poly1305 7
        { initialHsState with peer_pub_key := some [1] }
        (.packet 7 (some (.Syn [2] EncryptionMode.ChaCha20Poly1305)) true)
      = .cont { initialHsState with peer_pub_key := some [1] }
    ∧ hsProcess EncryptionMode.ChaCha20Poly1305 7
        { initialHsState with peer_pub_key := some [1] }
        (.packet 7 (some (.SynAck [2])) true)
      = .cont { initialHsState with peer_pub_key := some [1] }
    ∧ ((hsRun EncryptionMode.ChaCha20Poly1305 7
        { initialHsState with peer_pub_key := some [1] } []).state).peer_pub_key = some [1]
    ∧ firstPeerKey 7
        [HsEvent.packet 7 (some (.Syn [9] EncryptionMode.ChaCha20Poly1305)) true,
         HsEvent.packet 7 (some (.SynAck [9])) true,
         HsEvent.lingerExpired] = some [9] :=
  handshake_key_pinning EncryptionMode.ChaCha20Poly1305 EncryptionMode.ChaCha20Poly1305 7
    { initialHsState with peer_pub_key := some [1] } [1] [2] true []
    [HsEvent.packet 7 (some (.Syn [9] EncryptionMode.ChaCha20Poly1305)) true,
     HsEvent.packet 7 (some (.SynAck [9])) true,
     HsEvent.lingerExpired]
    [9]
    { peer_pub_key := some [9], received_syn_ack := true, sent_syn_ack := true,
      lingering := true, status := Status.Connected }
    rfl (by decide) (by decide)

/-- Counterexample to claim C5 as stated: the second STUN server observes the
same external *port* (9999) but a different IP, and `get_nat_type` returns
`Symmetric`, not `Cone` — the code compares the full socket address, not only
the port. -/
theorem get_nat_type_same_port_not_cone :
    (SockAddr.mk 1 9999).port = (SockAddr.mk 2 9999).port
    ∧ get_nat_type
        { dns_result := some (SockAddr.mk 0 0), send_ok := true,
          recv_result := .bytes (some { transaction_id := 7, xor_mapped_address := some (SockAddr.mk 2 9999) }),
          tx_id := 7 }
        (SockAddr.mk 1 9999) = NatType.Symmetric := by
  constructor
  · rfl
  · rfl

/-- Claim C5 (amended): `get_nat_type` returns `Cone` exactly when the second
resolution succeeds and observes a reflexive address equal to the first
(IP and port), `Symmetric` when it succeeds with a different address, and
`Unknown` on any error of the second resolution; it never propagates an
error. -/
theorem get_nat_type_classification :
    (∀ (env : StunEnv) (prev_addr : SockAddr) (e : StunError),
        resolve_public_ip env = .error e → get_nat_type env prev_addr = NatType.Unknown)
    ∧ (∀ (env : StunEnv) (prev_addr a : SockAddr),
        resolve_public_ip env = .ok a →
          (get_nat_type env prev_addr = NatType.Cone ↔ prev_addr = a))
    ∧ (∀ (env : StunEnv) (prev_addr a : SockAddr),
        resolve_public_ip env = .ok a →
          (get_nat_type env prev_addr = NatType.Symmetric ↔ prev_addr ≠ a)) := by
  refine ⟨?_, ?_, ?_⟩
  · intro env prev_addr e h
    simp [get_nat_type, h]
  · intro env prev_addr a h
    by_cases hp : prev_addr = a <;> simp [get_nat_type, h, hp]
  · intro env prev_addr a h
    by_cases hp : prev_addr = a <;> simp [get_nat_type, h, hp]

/-- Witness for the amended C5 on concrete probe outcomes. -/
theorem get_nat_type_classification_witness :
    get_nat_type
        { dns_result := some (SockAddr.mk 0 0), send_ok := true,
          recv_result := .timedOut, tx_id := 3 }
        (SockAddr.mk 1 1) = NatType.Unknown
    ∧ get_nat_type
        { dns_result := some (SockAddr.mk 0 0), send_ok := true,
          recv_result := .bytes (some { transaction_id := 3, xor_mapped_address := some (SockAddr.mk 3 4) }),
          tx_id := 3 }
        (SockAddr.mk 3 4) = NatType.Cone :=
  ⟨get_nat_type_classification.1
      { dns_result := some (SockAddr.mk 0 0), send_ok := true,
        recv_result := .timedOut, tx_id := 3 }
      (SockAddr.mk 1 1) StunError.stunTimeout rfl,
   (get_nat_type_classification.2.1
      { dns_result := some (SockAddr.mk 0 0), send_ok := true,
        recv_result := .bytes (some { transaction_id := 3, xor_mapped_address := some (SockAddr.mk 3 4) }),
        tx_id := 3 }
      (SockAddr.mk 3 4) (SockAddr.mk 3 4) rfl).mpr rfl⟩

/-- Claim C6: the wire form of every `HandshakeFrame` starts with its variant
tag as a little-endian 32-bit integer (0 = Syn, 1 = SynAck, 2 = Bye); a Syn
then carries exactly 32 raw public-key bytes and a 1-byte cipher-mode
discriminant (0 = ChaCha20-Poly1305, 1 = AES-256-GCM); a SynAck carries
exactly 32 raw public-key bytes; a Bye carries no payload bytes. -/
theorem handshake_frame_wire_format (pk : PubKey) (mode : EncryptionMode)
    (hlen : pk.length = 32) :
    serialize_handshake_msg (.Syn pk mode) = u32LeBytes 0 ++ pk ++ [encryptionModeByte mode]
    ∧ (serialize_handshake_msg (.Syn pk mode)).take 4 = [0, 0, 0, 0]
    ∧ (serialize_handshake_msg (.Syn pk mode)).drop 4 = pk ++ [encryptionModeByte mode]
    ∧ (serialize_handshake_msg (.Syn pk mode)).length = 37
    ∧ serialize_handshake_msg (.SynAck pk) = u32LeBytes 1 ++ pk
    ∧ (serialize_handshake_msg (.SynAck pk)).take 4 = [1, 0, 0, 0]
    ∧ (serialize_handshake_msg (.SynAck pk)).drop 4 = pk
    ∧ (serialize_handshake_msg (.SynAck pk)).length = 36
    ∧ serialize_handshake_msg .Bye = [2, 0, 0, 0]
    ∧ encryptionModeByte .ChaCha20Poly1305 = 0
    ∧ encryptionModeByte .Aes256Gcm = 1 := by
  refine ⟨rfl, rfl, ?_, ?_, rfl, rfl, ?_, ?_, rfl, rfl, rfl⟩
  · show ((u32LeBytes 0 ++ (pk ++ [encryptionModeByte mode]))).drop 4 = pk ++ [encryptionModeByte mode]
    rfl
  · simp [serialize_handshake_msg, u32LeBytes, hlen]
  · show ((u32LeBytes 1 ++ pk)).drop 4 = pk
    rfl
  · simp [serialize_handshake_msg, u32LeBytes, hlen]

/-- Witness for C6 at a concrete 32-byte key. -/
theorem handshake_frame_wire_format_witness :
    serialize_handshake_msg (.Syn (List.replicate 32 7) EncryptionMode.Aes256Gcm)
      = u32LeBytes 0 ++ List.replicate 32 7 ++ [encryptionModeByte EncryptionMode.Aes256Gcm]
    ∧ serialize_handshake_msg .Bye = [2, 0, 0, 0] :=
  ⟨(handshake_frame_wire_format (List.replicate 32 7) EncryptionMode.Aes256Gcm (by decide)).1,
   (handshake_frame_wire_format (List.replicate 32 7) EncryptionMode.Aes256Gcm (by decide)).2.2.2.2.2.2.2.2.1⟩

/-- Claim C8: both `disconnect` and `disconnect_on_bye_received`, from every
prior manager and shared state, leave the manager with no peer address, no
cipher, both nonce counters reset and the reliable stream down, emit a
`ClearChat` event, and set the shared status to `Disconnected`. -/
theorem disconnect_resets_state (m : MessageManager) (st : AppStateM) (write_ok : Bool) :
    ((disconnect m st write_ok).1.peer_addr = none
      ∧ (disconnect m st write_ok).1.cipher = none
      ∧ (disconnect m st write_ok).1.kcp_stream = none
      ∧ (disconnect m st write_ok).1.tx_nonce = 0
      ∧ (disconnect m st write_ok).1.rx_nonce = 0
      ∧ AppEvent.ClearChat ∈ (disconnect m st write_ok).2.events
      ∧ (disconnect m st write_ok).2.status = Status.Disconnected)
    ∧ ((disconnect_on_bye_received m st).1.peer_addr = none
      ∧ (disconnect_on_bye_received m st).1.cipher = none
      ∧ (disconnect_on_bye_received m st).1.kcp_stream = none
      ∧ (disconnect_on_bye_received m st).1.tx_nonce = 0
      ∧ (disconnect_on_bye_received m st).1.rx_nonce = 0
      ∧ AppEvent.ClearChat ∈ (disconnect_on_bye_received m st).2.events
      ∧ (disconnect_on_bye_received m st).2.status = Status.Disconnected) := by
  refine ⟨⟨rfl, rfl, rfl, rfl, rfl, ?_, rfl⟩, ⟨rfl, rfl, rfl, rfl, rfl, ?_, rfl⟩⟩
  · simp [disconnect, disconnect_internal, clear_chat, set_status, broadcast_status_change]
  · simp [disconnect_on_bye_received, disconnect_internal, clear_chat, set_status,
      broadcast_status_change]

/-- Claim C9: a STUN response whose transaction id differs from the request's
is answered with a `SecurityMismatch` error; `resolve_public_ip` never returns
an address in that case (and its single-receive structure never retries). -/
theorem stun_txid_mismatch_fatal (env : StunEnv) (response : StunResponse)
    (hdns : env.dns_result.isSome) (hsend : env.send_ok = true)
    (hrecv : env.recv_result = .bytes (some response))
    (hid : response.transaction_id ≠ env.tx_id) :
    resolve_public_ip env = .error .securityMismatch
    ∧ ∀ a, resolve_public_ip env ≠ .ok a := by
  obtain ⟨t, ht⟩ := Option.isSome_iff_exists.mp hdns
  have h1 : resolve_public_ip env = .error .securityMismatch := by
    simp [resolve_public_ip, ht, hsend, hrecv, hid]
  exact ⟨h1, fun a => by simp [h1]⟩

/-- Witness for C9 on a concrete tampered response. -/
theorem stun_txid_mismatch_fatal_witness :
    resolve_public_ip
        { dns_result := some (SockAddr.mk 9 9), send_ok := true,
          recv_result := .bytes (some { transaction_id := 5, xor_mapped_address := some (SockAddr.mk 1 2) }),
          tx_id := 6 }
      = .error .securityMismatch :=
  (stun_txid_mismatch_fatal
    { dns_result := some (SockAddr.mk 9 9), send_ok := true,
      recv_result := .bytes (some { transaction_id := 5, xor_mapped_address := some (SockAddr.mk 1 2) }),
      tx_id := 6 }
    { transaction_id := 5, xor_mapped_address := some (SockAddr.mk 1 2) }
    rfl rfl rfl (by decide)).1

/-- Claim C7: both counters are set to 0 when the session cipher is installed
after a successful handshake; `tx_nonce` grows by exactly 1 on each successful
encrypt in `send_secure`; `rx_nonce` grows by exactly 1 on each successful
decrypt in `receive_message`; and every session operation (`send_secure`,
`receive_message`, `upgrade_to_kcp`) leaves both counters non-decreasing. -/
theorem nonce_counter_discipline
    (dh : List Nat → List Nat → List Nat) (mkChaCha mkAes : List Nat → Aead)
    (my_priv my_pub : PubKey) (my_mode : EncryptionMode) (peer_addr : Nat)
    (mh m : MessageManager) (s0 sF : HsState) (evs : List HsEvent) (pk : PubKey)
    (cipher : CipherAlgo) (p ct data pt : List Nat) (write_ok : Bool) (buf_len : Nat)
    (hrun : hsRun my_mode peer_addr s0 evs = .succeeded pk sF)
    (hstream : m.kcp_stream = some ())
    (hcipher : m.cipher = some cipher)
    (henc : cipher.encrypt m.tx_nonce p = some ct)
    (hdec : cipher.decrypt m.rx_nonce data = some pt)
    (hdata : data ≠ []) :
    ((mm_handshake dh mkChaCha mkAes my_priv my_pub my_mode peer_addr mh s0 evs).map
        (fun r => (r.2.1.tx_nonce, r.2.1.rx_nonce, r.2.1.cipher.isSome))) = some (0, 0, true)
    ∧ (send_secure m write_ok p).2.tx_nonce = m.tx_nonce + 1
    ∧ (send_secure m write_ok p).2.rx_nonce = m.rx_nonce
    ∧ (receive_message m (.bytes data) buf_len).2.rx_nonce = m.rx_nonce + 1
    ∧ (receive_message m (.bytes data) buf_len).2.tx_nonce = m.tx_nonce
    ∧ (∀ (m2 : MessageManager) (w2 : Bool) (p2 : List Nat),
        m2.tx_nonce ≤ (send_secure m2 w2 p2).2.tx_nonce
        ∧ (send_secure m2 w2 p2).2.rx_nonce = m2.rx_nonce)
    ∧ (∀ (m2 : MessageManager) (rr : ReadOutcome) (bl : Nat),
        m2.rx_nonce ≤ (receive_message m2 rr bl).2.rx_nonce
        ∧ (receive_message m2 rr bl).2.tx_nonce = m2.tx_nonce)
    ∧ (∀ (m2 : MessageManager) (ok : Bool),
        (upgrade_to_kcp m2 ok).2.tx_nonce = m2.tx_nonce
        ∧ (upgrade_to_kcp m2 ok).2.rx_nonce = m2.rx_nonce) := by
  have hlen0 : ¬ data.length = 0 := by simpa using hdata
  refine ⟨?_, ?_, ?_, ?_, ?_, ?_, ?_, ?_⟩
  · simp [mm_handshake, hrun]
  · by_cases hw : write_ok = true <;>
      simp [send_secure, hstream, hcipher, henc, hw]
  · by_cases hw : write_ok = true <;>
      simp [send_secure, hstream, hcipher, henc, hw]
  · by_cases hb : buf_len < pt.length <;>
      simp [receive_message, hstream, hcipher, hdec, hlen0, hb]
  · by_cases hb : buf_len < pt.length <;>
      simp [receive_message, hstream, hcipher, hdec, hlen0, hb]
  · intro m2 w2 p2
    cases hks : m2.kcp_stream with
    | none => simp [send_secure, hks]
    | some u =>
        cases hc : m2.cipher with
        | none => simp [send_secure, hks, hc]
        | some c =>
            cases he : c.encrypt m2.tx_nonce p2 with
            | none => simp [send_secure, hks, hc, he]
            | some ct2 =>
                by_cases hw : w2 = true <;>
                  simp [send_secure, hks, hc, he, hw]
  · intro m2 rr bl
    cases hks : m2.kcp_stream with
    | none => simp [receive_message, hks]
    | some u =>
        cases rr with
        | readError => simp [receive_message, hks]
        | bytes d =>
            by_cases h0 : d.length = 0
            · simp [receive_message, hks, h0]
            · cases hc : m2.cipher with
              | none => simp [receive_message, hks, h0, hc]
              | some c =>
                  cases hd : c.decrypt m2.rx_nonce d with
                  | none => simp [receive_message, hks, h0, hc, hd]
                  | some pt2 =>
                      by_cases hb : bl < pt2.length <;>
                        simp [receive_message, hks, h0, hc, hd, hb]
  · intro m2 ok
    cases hpa : m2.peer_addr with
    | none => simp [upgrade_to_kcp, hpa]
    | some a =>
        by_cases hok : ok = true <;> simp [upgrade_to_kcp, hpa, hok]

/-- Witness for C7 on a concrete session: a successful run, one encrypt and
one decrypt with the tag-padding AEAD. -/
theorem nonce_counter_discipline_witness :
    ((mm_handshake (fun _ _ => []) (fun _ => padTagAead) (fun _ => padTagAead)
        [] [] EncryptionMode.ChaCha20Poly1305 7 MessageManager.new initialHsState
        [HsEvent.packet 7 (some (.Syn [9] EncryptionMode.ChaCha20Poly1305)) true,
         HsEvent.packet 7 (some (.SynAck [9])) true,
         HsEvent.lingerExpired]).map
        (fun r => (r.2.1.tx_nonce, r.2.1.rx_nonce, r.2.1.cipher.isSome))) = some (0, 0, true)
    ∧ (send_secure
        { peer_addr := some 7, kcp_stream := some (), cipher := some (CipherAlgo.ChaCha20 padTagAead), tx_nonce := 0, rx_nonce := 0 }
        true []).2.tx_nonce = 0 + 1 :=
  have h := nonce_counter_discipline (fun _ _ => []) (fun _ => padTagAead) (fun _ => padTagAead)
    [] [] EncryptionMode.ChaCha20Poly1305 7 MessageManager.new
    { peer_addr := some 7, kcp_stream := some (), cipher := some (CipherAlgo.ChaCha20 padTagAead), tx_nonce := 0, rx_nonce := 0 }
    initialHsState
    { peer_pub_key := some [9], received_syn_ack := true, sent_syn_ack := true,
      lingering := true, status := Status.Connected }
    [HsEvent.packet 7 (some (.Syn [9] EncryptionMode.ChaCha20Poly1305)) true,
     HsEvent.packet 7 (some (.SynAck [9])) true,
     HsEvent.lingerExpired]
    [9] (CipherAlgo.ChaCha20 padTagAead) [] (List.replicate 16 0) (List.replicate 16 0) []
    true 32 (by decide) rfl rfl rfl (by decide) (by decide)
  ⟨h.1, h.2.1⟩

/-- Claim C10: `receive_message` leaves `rx_nonce` unchanged except when
decryption actually succeeds on a non-empty read: a zero-length read returns
`Ok(0)` without touching the cipher; a missing stream or cipher and a failed
decryption return errors with `rx_nonce` unchanged; and whenever `rx_nonce`
changed (with the read fitting the caller's buffer, as the stream read
guarantees) the call returned `Ok` on a non-empty read. -/
theorem receive_rx_nonce_discipline :
    (∀ (m : MessageManager) (bl : Nat), m.kcp_stream = some () →
        receive_message m (.bytes []) bl = (.ok 0, m))
    ∧ (∀ (m : MessageManager) (rr : ReadOutcome) (bl : Nat), m.kcp_stream = none →
        receive_message m rr bl = (.error .noStream, m))
    ∧ (∀ (m : MessageManager) (data : List Nat) (bl : Nat),
        m.kcp_stream = some () → m.cipher = none → data ≠ [] →
        receive_message m (.bytes data) bl = (.error .noCipher, m))
    ∧ (∀ (m : MessageManager) (cipher : CipherAlgo) (data : List Nat) (bl : Nat),
        m.kcp_stream = some () → m.cipher = some cipher →
        cipher.decrypt m.rx_nonce data = none → data ≠ [] →
        receive_message m (.bytes data) bl = (.error .decryptFailed, m))
    ∧ (∀ (m : MessageManager) (rr : ReadOutcome) (bl : Nat), rr.len ≤ bl →
        (receive_message m rr bl).2.rx_nonce ≠ m.rx_nonce →
        ∃ (data : List Nat) (n : Nat), rr = ReadOutcome.bytes data ∧ data ≠ []
          ∧ (receive_message m rr bl).1 = .ok n) := by
  refine ⟨?_, ?_, ?_, ?_, ?_⟩
  · intro m bl h
    simp [receive_message, h]
  · intro m rr bl h
    simp [receive_message, h]
  · intro m data bl hks hc hne
    have h0 : ¬ data.length = 0 := by simpa using hne
    simp [receive_message, hks, hc, h0]
  · intro m cipher data bl hks hc hd hne
    have h0 : ¬ data.length = 0 := by simpa using hne
    simp [receive_message, hks, hc, h0, hd]
  · intro m rr bl hlen hch
    cases hks : m.kcp_stream with
    | none => simp [receive_message, hks] at hch
    | some u =>
        cases rr with
        | readError => simp [receive_message, hks] at hch
        | bytes data =>
            by_cases h0 : data.length = 0
            · simp [receive_message, hks, h0] at hch
            · cases hc : m.cipher with
              | none => simp [receive_message, hks, h0, hc] at hch
              | some c =>
                  cases hd : c.decrypt m.rx_nonce data with
                  | none => simp [receive_message, hks, h0, hc, hd] at hch
                  | some pt =>
                      have hptlen : pt.length + 16 = data.length :=
                        CipherAlgo.decrypt_len c m.rx_nonce data pt hd
                      have hdl : data.length ≤ bl := by simpa [ReadOutcome.len] using hlen
                      have hfit : ¬ (bl < pt.length) := by omega
                      refine ⟨data, pt.length, rfl, ?_, ?_⟩
                      · intro hnil
                        exact h0 (by simp [hnil])
                      · simp [receive_message, hks, h0, hc, hd, hfit]

/-- Witness for C10: a zero-length read on a live stream returns `Ok(0)` with
the manager unchanged. -/
theorem receive_rx_nonce_discipline_witness :
    receive_message
        { peer_addr := some 3, kcp_stream := some (), cipher := none, tx_nonce := 0, rx_nonce := 0 }
        (.bytes []) 5
      = (.ok 0,
        { peer_addr := some 3, kcp_stream := some (), cipher := none, tx_nonce := 0, rx_nonce := 0 }) :=
  receive_rx_nonce_discipline.1
    { peer_addr := some 3, kcp_stream := some (), cipher := none, tx_nonce := 0, rx_nonce := 0 }
    5 rfl

end GhostLink
